import Mathlib

/-!
Verification development for the dialogue/voice-line extraction tool
(`main.py`).  The program walks a compiled script image (symbol table +
instruction stream), reconstructs NPC records and dialogue entries by
peephole matching, walks info functions collecting line events, and merges
the result with an external line-text database into export rows.

The definitions below are a shallow embedding of the source.  Python's
unbounded integers are `Int`; the process-global caches and dicts are
threaded explicitly as insertion-ordered association lists (Python dicts
preserve insertion order and update keys in place); `print` diagnostics are
modelled as a log of tagged messages; loops whose advance is data-dependent
(instruction sizes are read from the image) take a fuel parameter and
return `none` when the fuel runs out, which models non-termination.
-/

/-- Daedalus opcodes that the source inspects, plus a catch-all for every
other opcode (the matchers only ever compare opcodes for equality). -/
inductive Opcode where
  | RSR      -- return from subroutine
  | PUSHV    -- push variable
  | PUSHI    -- push immediate
  | PUSHVI   -- push local/global reference
  | MOVS     -- move string
  | MOVI     -- move int
  | MOVVF    -- move function
  | BE       -- call external (builtin), carries a symbol reference
  | BL       -- call function, carries a target address
  | other (code : Nat)
deriving DecidableEq, Repr

/-- One decoded instruction: opcode, encoded size in bytes, integer
immediate, symbol-table reference, and call-target address.  The decoder
populates only the fields relevant to the opcode; the embedding carries all
of them (the matchers read only the fields the source reads). -/
structure Instr where
  op : Opcode
  size : Int
  immediate : Int
  symbol : Int
  address : Int
deriving DecidableEq, Repr

/-- DSymbol kinds distinguished by the source (`DaedalusDataType`). -/
inductive SymKind where
  | CLASS
  | INSTANCE
  | FUNCTION
  | CONST
  | VAR
  | other (code : Nat)
deriving DecidableEq, Repr

/-- One symbol-table entry: name, kind, parent-class reference, declared
size, code address, const flag, and typed value accessors
(`get_string` / `get_int`). -/
structure DSymbol where
  name : String
  kind : SymKind
  parent : Int
  size : Int
  address : Int
  isConst : Bool
  strValue : String
  intValue : Int
deriving DecidableEq, Repr

/-- The decoded script image: a densely indexed symbol table
(`script.symbols`) and an instruction stream addressable by byte offset
(`script.get_instruction`).  Both are total maps — the source likewise
assumes in-range accesses for the bracket/`get_instruction` operations. -/
structure Script where
  symCount : Nat
  syms : Nat → DSymbol
  code : Int → Instr

/-- `script.get_symbol_by_name`: index of the first symbol with the given
name, if any. -/
def Script.getSymbolByName (s : Script) (n : String) : Option Nat :=
  (List.range s.symCount).find? (fun i => (s.syms i).name == n)

/-- `script.get_symbol_by_index`: `none` models the out-of-range `None`
return of the source API. -/
def Script.getSymbolByIndex (s : Script) (i : Int) : Option DSymbol :=
  if 0 ≤ i ∧ i < (s.symCount : Int) then some (s.syms i.toNat) else none

/-- Insertion-ordered dictionary update, `d[k] = v`: an existing key keeps
its position, a new key is appended at the end (Python dict semantics). -/
def dictInsert {α β : Type} [DecidableEq α] : List (α × β) → α → β → List (α × β)
  | [], k, v => [(k, v)]
  | (k', v') :: rest, k, v =>
    if k' = k then (k, v) :: rest else (k', v') :: dictInsert rest k v

/-- Dictionary lookup, `d.get(k)` / `k in d`. -/
def dictGet? {α β : Type} [DecidableEq α] : List (α × β) → α → Option β
  | [], _ => none
  | (k', v') :: rest, k => if k' = k then some v' else dictGet? rest k

/-- Outcomes of `DaedClass.search`: the two raised exceptions of the source
(`Class not found!`, `is not a Class!`), plus the `IndexError` that
`name.split('.')[1]` raises when a member name contains no `.`. -/
inductive ClassErr where
  | notFound
  | wrongKind
  | badMemberName
deriving DecidableEq, Repr

/-- `DaedClass`: a class symbol index together with its member table
`members : member-name → member symbol index`, keyed by
`member.sym.name.split('.')[1]`. -/
structure DaedClass where
  idx : Nat
  members : List (String × Nat)
deriving DecidableEq, Repr

/-- Python `name.split('.')` over the character list: split on `'.'`,
keeping empty pieces (`"".split('.') == ['']`,
`"a..b".split('.') == ['a', '', 'b']`). -/
def splitDots : List Char → List (List Char)
  | [] => [[]]
  | ch :: rest =>
    let r := splitDots rest
    if ch = '.' then [] :: r
    else
      match r with
      | [] => [[ch]]
      | h :: t => (ch :: h) :: t

/-- `name.split('.')[1]`: the piece after the first `.`, up to the second
`.` if any; `none` models the `IndexError` raised when the name contains no
`.` at all. -/
def pySplitDot1 (s : String) : Option String :=
  ((splitDots s.toList).map (fun l => String.mk l)).get? 1

/-- Member-table construction of `DaedClass.__init__`: for
`off in range(1, size+1)` insert `members[name.split('.')[1]] = idx+off`,
front to back.  `none` models the `IndexError` raised by
`name.split('.')[1]` when a member name contains no `.`. -/
def DaedClass.buildMembersFwd (s : Script) (idx : Nat)
    (offs : List Nat) (acc : List (String × Nat)) :
    Option (List (String × Nat)) :=
  match offs with
  | [] => some acc
  | off :: rest =>
    match pySplitDot1 (s.syms (idx + off)).name with
    | none => none
    | some key => DaedClass.buildMembersFwd s idx rest (dictInsert acc key (idx + off))

/-- `DaedClass.__init__` over a class symbol at `idx` with declared size
`size`: members at indices `idx+1 .. idx+size`. -/
def DaedClass.init (s : Script) (idx : Nat) : Option DaedClass :=
  match DaedClass.buildMembersFwd s idx
      ((List.range (s.syms idx).size.toNat).map (· + 1)) [] with
  | none => none
  | some m => some ⟨idx, m⟩

/-- `DaedClass.search`: look the class symbol up by name, fail with
`ClassNotFound` when absent and `WrongSymbolKind` when it is not a class,
then parse its members. -/
def DaedClass.search (s : Script) (name : String) : Except ClassErr DaedClass :=
  match s.getSymbolByName name with
  | none => .error .notFound
  | some i =>
    if (s.syms i).kind ≠ SymKind.CLASS then .error .wrongKind
    else
      match DaedClass.init s i with
      | none => .error .badMemberName
      | some cls => .ok cls

/-- The resolved constants of `ScriptConstants`: member/global indices and
wrapper-function addresses used by the matchers (`-1` = wrapper absent). -/
structure ScriptConstants where
  c_info_idx : Nat
  c_info_npc : Int
  c_info_info : Int
  c_npc_name : Int
  c_npc_voice : Int
  svm_member_lookup : List (Int × String)
  v_other : Int
  v_self : Int
  f_aioutput : Int
  f_aioutputsvm : Int
  f_aioutputsvmo : Int
  f_say : Int
  f_say_overlay : Int
  f_say_gold : Int
deriving Repr

/-- `LineType` of the source. -/
inductive LineType where
  | NONE
  | NORMAL
  | SVM
  | SVM_OVERLAY
deriving DecidableEq, Repr

/-- `Speaker` of the source. -/
inductive Speaker where
  | NONE
  | NPC
  | HERO
deriving DecidableEq, Repr

/-- `ScriptLineInfo`: one extracted line event. -/
structure ScriptLineInfo where
  speaker : Speaker
  type : LineType
  line_name : String
deriving DecidableEq, Repr

/-- Tags for the `print` diagnostics of the source, in emission order.
`lineOwnerConflict` models the print at the duplicate-owner branch (the
source prints a literal non-f-string there). -/
inductive LogMsg where
  | npcIncomplete (npcIdx : Int)
  | diaIncomplete (symIdx : Nat)
  | speakerUnknownOp (addr : Int)
  | speakerNeitherSelfNorOther (addr : Int)
  | goldUnparseable (addr : Int)
  | lineNameUnparseable (addr : Int)
  | lineEmpty (name : String) (symIdx : Int)
  | lineUnknownSymbol (symIdx : Int) (addr : Int)
  | svmMemberUnresolvable
  | lineOwnerConflict
  | diaSummary (name : String) (lineCount : Nat)
deriving DecidableEq, Repr

/-- An `NpcInfo` object, identified up to Python object identity.
`NpcInfo` defines no `__eq__`, so `==`/`in` on it compare identity:
`parse_npc` caches one object per NPC index (`cached`), while
`NpcInfo.unknown()` and `NpcInfo.hero()` allocate a fresh object at every
call — `unknownO` is tagged with the dialogue entry that allocated it and
`heroO` with the (entry, line) position, so distinct allocations compare
unequal exactly as distinct Python objects do. -/
inductive NpcObj where
  | cached (idx : Int) (name : String) (voice : Int)
  | unknownO (entry : Nat)
  | heroO (entry : Nat) (lineNo : Nat)
deriving DecidableEq, Repr

/-- `NpcInfo.idx`: `unknown()` is built as `NpcInfo(-1, "Unknown", 0)`,
`hero()` as `NpcInfo(0, "Hero", 15)`. -/
def NpcObj.idx : NpcObj → Int
  | .cached i _ _ => i
  | .unknownO _ => -1
  | .heroO _ _ => 0

/-- `NpcInfo.name`. -/
def NpcObj.name : NpcObj → String
  | .cached _ n _ => n
  | .unknownO _ => "Unknown"
  | .heroO _ _ => "Hero"

/-- `NpcInfo.voice`. -/
def NpcObj.voice : NpcObj → Int
  | .cached _ _ v => v
  | .unknownO _ => 0
  | .heroO _ _ => 15

/-- `extract_speaker`: look back 3 and 2 positions before the trigger; both
must be the push local/global reference opcode, else log and default to
`NONE`.  The 3-back instruction's symbol reference decides:
`SELF` → `NPC`, `OTHER` → `HERO`, anything else → `NONE` (logged).
`prev` holds the previously visited instructions most recent first (the
source appends at the end of `prev_insts` and indexes from the back, so
`prev_insts[-k]` is element `k-1` here). -/
def extract_speaker (prev : List Instr) (c : ScriptConstants)
    (current_addr : Int) : Speaker × List LogMsg :=
  match prev with
  | _p1 :: p2 :: p3 :: _ =>
    if p3.op ≠ Opcode.PUSHVI ∨ p2.op ≠ Opcode.PUSHVI then
      (Speaker.NONE, [.speakerUnknownOp current_addr])
    else if p3.symbol = c.v_self then (Speaker.NPC, [])
    else if p3.symbol = c.v_other then (Speaker.HERO, [])
    else (Speaker.NONE, [.speakerNeitherSelfNorOther current_addr])
  | _ => (Speaker.NONE, [.speakerUnknownOp current_addr])

/-- Python `==` between a `DaedalusSymbol` object and a `str`: the class
defines no cross-type equality, so the comparison is always `False`.  The
source's emptiness test `line_name is None or line_name == ""` compares the
symbol object `line_name` (not the resolved string `line_name_str`) against
`""`, and `line_name` is already known non-`None` on that path, so the test
never fires. -/
def pySymEqStr (_sym : DSymbol) (_s : String) : Bool := false

/-- Event-kind classification of a builtin call: `AI_OUTPUT` → `NORMAL`,
`AI_OUTPUTSVM` → `SVM`, `AI_OUTPUTSVM_OVERLAY` → `SVM_OVERLAY`. -/
def lineTypeOfBE (c : ScriptConstants) (inst : Instr) : LineType :=
  if inst.op = Opcode.BE then
    if inst.symbol = c.f_aioutput then .NORMAL
    else if inst.symbol = c.f_aioutputsvm then .SVM
    else if inst.symbol = c.f_aioutputsvmo then .SVM_OVERLAY
    else .NONE
  else .NONE

/-- The function-address → line-event memo (`script_lines_cache`). -/
abbrev LinesCache := List (Int × List ScriptLineInfo)

mutual

/-- `extract_script_lines`: memoized line-event walk of the function at
`fun_addr`.  A cache hit returns the stored sequence; otherwise the body is
walked by `eslLoop` and the memo entry is written only after the walk
completes.  `none` models exhaustion of the fuel, i.e. a walk that does not
terminate within `fuel` steps. -/
def extract_script_lines (s : Script) (c : ScriptConstants) (fuel : Nat)
    (fun_addr : Int) (cache : LinesCache) :
    Option (List ScriptLineInfo × LinesCache × List LogMsg) :=
  match dictGet? cache fun_addr with
  | some r => some (r, cache, [])
  | none =>
    match fuel with
    | 0 => none
    | f + 1 =>
      match eslLoop s c f fun_addr [] [] cache [] with
      | none => none
      | some (res, cache', log) => some (res, dictInsert cache' fun_addr res, log)
termination_by structural fuel

/-- The body loop of `extract_script_lines`: one iteration per decoded
instruction at `addr`, carrying the full history `prev` (most recent
first), the collected events `acc`, the shared memo and the log.  A `BL` to
another function splices that function's events in place (same memo); the
`B_SAY`/`B_SAY_OVERLAY` wrapper addresses classify like the builtin calls;
the `B_SAY_GOLD` wrapper synthesizes a `$GOLD_<immediate>` event directly. -/
def eslLoop (s : Script) (c : ScriptConstants) (fuel : Nat) (addr : Int)
    (prev : List Instr) (acc : List ScriptLineInfo) (cache : LinesCache)
    (log : List LogMsg) :
    Option (List ScriptLineInfo × LinesCache × List LogMsg) :=
  match fuel with
  | 0 => none
  | f + 1 =>
    let inst := s.code addr
    if inst.op = Opcode.RSR then some (acc, cache, log)
    else
      let blRes : Option (LineType × List ScriptLineInfo × LinesCache × List LogMsg) :=
        if inst.op = Opcode.BL then
          if inst.address = c.f_say then some (.SVM, acc, cache, log)
          else if inst.address = c.f_say_overlay then some (.SVM_OVERLAY, acc, cache, log)
          else if inst.address = c.f_say_gold then
            -- hardcoded gold-amount form: payload is a preceding literal push
            let sp := extract_speaker prev c addr
            match prev with
            | p1 :: _ =>
              if p1.op = Opcode.PUSHI then
                some (lineTypeOfBE c inst,
                  acc ++ [⟨sp.1, .SVM, "$GOLD_" ++ toString p1.immediate⟩],
                  cache, log ++ sp.2)
              else
                some (lineTypeOfBE c inst, acc, cache,
                  log ++ sp.2 ++ [.goldUnparseable addr])
            | [] =>
              some (lineTypeOfBE c inst, acc, cache,
                log ++ sp.2 ++ [.goldUnparseable addr])
          else
            match extract_script_lines s c f inst.address cache with
            | none => none
            | some (r, cache', rlog) =>
              some (lineTypeOfBE c inst, acc ++ r, cache', log ++ rlog)
        else some (lineTypeOfBE c inst, acc, cache, log)
      match blRes with
      | none => none
      | some (lt, acc1, cache1, log1) =>
        if lt = LineType.NONE then
          eslLoop s c f (addr + inst.size) (inst :: prev) acc1 cache1 log1
        else
          let sp := extract_speaker prev c addr
          let log2 := log1 ++ sp.2
          match prev with
          | p1 :: _ =>
            if p1.op = Opcode.PUSHV then
              match s.getSymbolByIndex p1.symbol with
              | some lsym =>
                if lsym.isConst then
                  if pySymEqStr lsym "" then
                    eslLoop s c f (addr + inst.size) (inst :: prev) acc1 cache1
                      (log2 ++ [.lineEmpty lsym.name p1.symbol])
                  else
                    eslLoop s c f (addr + inst.size) (inst :: prev)
                      (acc1 ++ [⟨sp.1, lt, lsym.strValue⟩]) cache1 log2
                else
                  eslLoop s c f (addr + inst.size) (inst :: prev) acc1 cache1
                    (log2 ++ [.lineUnknownSymbol p1.symbol addr])
              | none =>
                eslLoop s c f (addr + inst.size) (inst :: prev) acc1 cache1
                  (log2 ++ [.lineUnknownSymbol p1.symbol addr])
            else
              eslLoop s c f (addr + inst.size) (inst :: prev) acc1 cache1
                (log2 ++ [.lineNameUnparseable addr])
          | [] =>
            eslLoop s c f (addr + inst.size) (inst :: prev) acc1 cache1
              (log2 ++ [.lineNameUnparseable addr])
termination_by structural fuel

end

/-- The NPC cache (`npc_cache`): NPC index → parsed record, or `none` for
the cached absent marker of an unparseable NPC. -/
abbrev NpcCache := List (Int × Option NpcObj)

/-- The 3-instruction sliding-window loop of `NpcInfo.parse_npc`:
`(i1, i2, i3)` is the current window, `addr` the address of `i3`,
`npc_name_idx`/`npc_voice` the captured fields (`-1` = not yet captured).
Each iteration first breaks with a logged incomplete outcome if any window
instruction is the return opcode, then tests the two shapes
`(PUSHV X, PUSHV = NAME-member, MOVS)` and
`(PUSHI V, PUSHV = VOICE-member, MOVI)`, then breaks successfully once both
fields are captured, else slides the window one instruction.
Returns `some (some (nameIdx, voice), log)` on success,
`some (none, log)` on the incomplete break, `none` on fuel exhaustion. -/
def parseNpcLoop (s : Script) (c : ScriptConstants) (npcIdx : Int) :
    Nat → Instr → Instr → Instr → Int → Int → Int →
    Option (Option (Int × Int) × List LogMsg)
  | 0, _, _, _, _, _, _ => none
  | fuel + 1, i1, i2, i3, addr, npc_name_idx, npc_voice =>
    if i1.op = Opcode.RSR ∨ i2.op = Opcode.RSR ∨ i3.op = Opcode.RSR then
      some (none, [.npcIncomplete npcIdx])
    else
      let n' :=
        if i1.op = Opcode.PUSHV ∧ i2.op = Opcode.PUSHV ∧
            i2.symbol = c.c_npc_name ∧ i3.op = Opcode.MOVS then
          i1.symbol
        else npc_name_idx
      let v' :=
        if i1.op = Opcode.PUSHI ∧ i2.op = Opcode.PUSHV ∧
            i2.symbol = c.c_npc_voice ∧ i3.op = Opcode.MOVI then
          i1.immediate
        else npc_voice
      if n' ≠ -1 ∧ v' ≠ -1 then some (some (n', v'), [])
      else
        parseNpcLoop s c npcIdx fuel i2 i3 (s.code (addr + i3.size))
          (addr + i3.size) n' v'

/-- `NpcInfo.parse_npc`: a cached NPC index returns its cached record (or
absent marker) without touching the instruction stream; otherwise the
window loop runs from the NPC symbol's code address, a successful capture
builds the record (name resolved by `get_string` on the captured symbol)
and caches it, and an incomplete outcome caches the absent marker `none`.
The outer `none` models fuel exhaustion of the loop. -/
def parse_npc (s : Script) (npcIdx : Int) (c : ScriptConstants)
    (cache : NpcCache) (fuel : Nat) :
    Option (Option NpcObj × NpcCache × List LogMsg) :=
  match dictGet? cache npcIdx with
  | some v => some (v, cache, [])
  | none =>
    let npc := s.syms npcIdx.toNat
    let a0 := npc.address
    let i1 := s.code a0
    let a1 := a0 + i1.size
    let i2 := s.code a1
    let a2 := a1 + i2.size
    let i3 := s.code a2
    match parseNpcLoop s c npcIdx fuel i1 i2 i3 a2 (-1) (-1) with
    | none => none
    | some (none, log) => some (none, dictInsert cache npcIdx none, log)
    | some (some (nameIdx, voice), log) =>
      let o := NpcObj.cached npcIdx (s.syms nameIdx.toNat).strValue voice
      some (some o, dictInsert cache npcIdx (some o), log)

/-- One entry of the external line-text database (`csl.get(...)`):
`message.text` and `message.name` (the audio file name). -/
structure CslEntry where
  text : String
  audioName : String
deriving DecidableEq, Repr

/-- One emitted CSV row:
`[line_name, npc_name, npc_idx, voice_id, text, filename]`. -/
structure Row where
  lineId : String
  npcName : String
  npcId : Int
  voiceId : Int
  text : String
  fname : String
deriving DecidableEq, Repr

/-- The deferred voice-line usage map `svm_usages`:
`(voiceId, strippedLineId) → owner list` (owners are `NpcInfo` objects or
Python `None` for an absent NPC). -/
abbrev SvmUsages := List ((Int × String) × List (Option NpcObj))

/-- The global first-owner map `line_owner : lineId → NpcInfo | None`. -/
abbrev LineOwner := List (String × Option NpcObj)

/-- The shared mutable aggregation state threaded through `parse_dia`:
the two dicts, the emitted rows, and the diagnostic log. -/
structure AggState where
  svm_usages : SvmUsages
  line_owner : LineOwner
  rows : List Row
  log : List LogMsg
deriving DecidableEq, Repr

/-- `line_npc.voice if line_npc is not None else 0`. -/
def npcVoiceOf : Option NpcObj → Int
  | some o => o.voice
  | none => 0

/-- `line_npc.name if line_npc is not None else "-"`. -/
def npcNameOf : Option NpcObj → String
  | some o => o.name
  | none => "-"

/-- `line_npc.idx if line_npc is not None else 0`. -/
def npcIdxOf : Option NpcObj → Int
  | some o => o.idx
  | none => 0

/-- The body of `parse_dia`'s `for line in lines` loop for one event.
`entry` identifies the `parse_dia` call (for the fresh `NpcInfo.hero()`
allocation per line) and `lineNo` the position of the event in `lines`.

Voice-kind events record usage under `(voice_id, line_name[1:])`, appending
the resolved NPC only if not already present (`in` compares object
identity).  Normal-kind events read the first-owner dict via
`setdefault(line_name, None)` — which inserts `None` for a fresh key — and
then the source's `prev_owner = line_npc` rebinds the local variable only:
the dict entry is never updated, so the stored owner remains `None`. -/
def processLine (csl : String → Option CslEntry) (entry : Nat) (lineNo : Nat)
    (npc : Option NpcObj) (line : ScriptLineInfo) (st : AggState) : AggState :=
  let line_name := line.line_name
  let line_npc : Option NpcObj :=
    if line.speaker = Speaker.HERO then some (.heroO entry lineNo) else npc
  let voice_id : Int := npcVoiceOf line_npc
  let npc_name : String := npcNameOf line_npc
  let npc_idx : Int := npcIdxOf line_npc
  if line.type = LineType.SVM ∨ line.type = LineType.SVM_OVERLAY then
    -- cut off dollar sign; setdefault + identity-deduplicated append
    let key := (voice_id, line_name.drop 1)
    let cur := (dictGet? st.svm_usages key).getD []
    if line_npc ∈ cur then
      { st with svm_usages := dictInsert st.svm_usages key cur }
    else
      { st with svm_usages := dictInsert st.svm_usages key (cur ++ [line_npc]) }
  else
    let prev_owner : Option NpcObj := (dictGet? st.line_owner line_name).getD none
    let line_owner' := dictInsert st.line_owner line_name prev_owner
    match prev_owner with
    | some po =>
      if some po ≠ line_npc then
        -- conflict: log and proceed to emission anyway
        let log' := st.log ++ [.lineOwnerConflict]
        match csl line_name with
        | some d =>
          { st with line_owner := line_owner', log := log',
                    rows := st.rows ++ [⟨line_name, npc_name, npc_idx, voice_id, d.text, d.audioName⟩] }
        | none => { st with line_owner := line_owner', log := log' }
      else
        -- same owner twice: skip silently
        { st with line_owner := line_owner' }
    | none =>
      match csl line_name with
      | some d =>
        { st with line_owner := line_owner',
                  rows := st.rows ++ [⟨line_name, npc_name, npc_idx, voice_id, d.text, d.audioName⟩] }
      | none => { st with line_owner := line_owner' }

/-- `parse_dia`'s event loop over the extracted line sequence, numbering
the events for the per-line `hero()` allocations. -/
def processLines (csl : String → Option CslEntry) (entry : Nat)
    (npc : Option NpcObj) :
    List ScriptLineInfo → Nat → AggState → AggState
  | [], _, st => st
  | l :: rest, n, st =>
    processLines csl entry npc rest (n + 1) (processLine csl entry n npc l st)

/-- The 3-instruction sliding-window loop of `parse_dia`: like
`parseNpcLoop` but matching the dialogue-entry shapes
`(PUSHI V, PUSHV = NPC-member, MOVI)` and
`(PUSHI V, PUSHV = INFORMATION-member, MOVVF)`.  The return-opcode break
returns whatever has been captured so far (the caller decides what is
fatal); `none` is fuel exhaustion. -/
def diaMatchLoop (s : Script) (c : ScriptConstants) :
    Nat → Instr → Instr → Instr → Int → Int → Int → Option (Int × Int)
  | 0, _, _, _, _, _, _ => none
  | fuel + 1, i1, i2, i3, addr, npc_idx, info_idx =>
    if i1.op = Opcode.RSR ∨ i2.op = Opcode.RSR ∨ i3.op = Opcode.RSR then
      some (npc_idx, info_idx)
    else
      let n' :=
        if i1.op = Opcode.PUSHI ∧ i2.op = Opcode.PUSHV ∧
            i2.symbol = c.c_info_npc ∧ i3.op = Opcode.MOVI then
          i1.immediate
        else npc_idx
      let inf' :=
        if i1.op = Opcode.PUSHI ∧ i2.op = Opcode.PUSHV ∧
            i2.symbol = c.c_info_info ∧ i3.op = Opcode.MOVVF then
          i1.immediate
        else info_idx
      if n' ≠ -1 ∧ inf' ≠ -1 then some (n', inf')
      else
        diaMatchLoop s c fuel i2 i3 (s.code (addr + i3.size))
          (addr + i3.size) n' inf'

/-- Full per-run state threaded through the dialogue pass: the two
process-global memo caches plus the aggregation state. -/
structure DiaState where
  npc_cache : NpcCache
  lines_cache : LinesCache
  agg : AggState

/-- `parse_dia` over the dialogue-entry symbol at index `symIdx`: run the
window matcher from the symbol's code address; a missing info function is
logged and skips the entry; a missing NPC index attributes the entry to a
freshly allocated unknown-NPC sentinel (tagged by `symIdx`, the identity of
this allocation), otherwise the NPC is resolved through the cache; the info
function is walked for line events, which are then folded into the
aggregation state; the trailing summary print is logged.  `none` is fuel
exhaustion of one of the inner loops. -/
def parse_dia (s : Script) (csl : String → Option CslEntry) (symIdx : Nat)
    (c : ScriptConstants) (fuel : Nat) (st : DiaState) : Option DiaState :=
  let sym := s.syms symIdx
  let a0 := sym.address
  let i1 := s.code a0
  let a1 := a0 + i1.size
  let i2 := s.code a1
  let a2 := a1 + i2.size
  let i3 := s.code a2
  match diaMatchLoop s c fuel i1 i2 i3 a2 (-1) (-1) with
  | none => none
  | some (npc_idx, info_idx) =>
    if info_idx = -1 then
      some { st with agg := { st.agg with log := st.agg.log ++ [.diaIncomplete symIdx] } }
    else
      let npcRes : Option (Option NpcObj × NpcCache × List LogMsg) :=
        if npc_idx ≠ -1 then parse_npc s npc_idx c st.npc_cache fuel
        else some (some (.unknownO symIdx), st.npc_cache, [])
      match npcRes with
      | none => none
      | some (npc, ncache, nlog) =>
        let info := s.syms info_idx.toNat
        match extract_script_lines s c fuel info.address st.lines_cache with
        | none => none
        | some (lines, lcache, llog) =>
          let agg0 : AggState := { st.agg with log := st.agg.log ++ nlog ++ llog }
          let agg1 := processLines csl symIdx npc lines 0 agg0
          some { npc_cache := ncache, lines_cache := lcache,
                 agg := { agg1 with
                          log := agg1.log ++ [.diaSummary sym.name lines.length] } }

/-- One iteration of `main`'s dialogue loop body: skip symbols that are not
instances or whose parent is not the dialogue-entry class, else run
`parse_dia` (keeping the state unchanged on fuel exhaustion, which the
empty run below never reaches). -/
def diaStep (s : Script) (csl : String → Option CslEntry)
    (c : ScriptConstants) (fuel : Nat) (st : DiaState) (symIdx : Nat) : DiaState :=
  let sym := s.syms symIdx
  if sym.kind ≠ SymKind.INSTANCE then st
  else if sym.parent ≠ (c.c_info_idx : Int) then st
  else
    match parse_dia s csl symIdx c fuel st with
    | some st' => st'
    | none => st

/-- The initial aggregation state: empty dicts, no rows, no log. -/
def initDiaState : DiaState := ⟨[], [], ⟨[], [], [], []⟩⟩

/-- The dialogue pass of `main` (source line 401).  The source reads
`for symbol in []:#script.symbols:` — the loop iterates a literal empty
list, the symbol table being commented out — so `diaStep` is never
invoked and the pass leaves the state untouched. -/
def mainDiaPhase (s : Script) (csl : String → Option CslEntry)
    (c : ScriptConstants) (fuel : Nat) : DiaState :=
  ([] : List Nat).foldl (diaStep s csl c fuel) initDiaState

/-- The displayed-owner resolution of `main`'s voice-slot loop (source
lines 419-441), as a function of the slot id and the recorded usage list
for `(slotId, member)`: slot 15 is always the hero sentinel; no recorded
usage displays `Unknown<slotId>` with the slot id as index; a single
recorded owner displays that owner (or `Unknown` with index -1 for the
absent marker); several owners display the comma-joined names with the
slot id as index. -/
def resolveSvmDisplay (voice_idx : Int)
    (svm_usage : Option (List (Option NpcObj))) : String × Int :=
  if voice_idx = 15 then ("Hero", 0)
  else
    match svm_usage with
    | none => ("Unknown" ++ toString voice_idx, voice_idx)
    | some l =>
      match l with
      | [u] =>
        match u with
        | none => ("Unknown", -1)
        | some o => (o.name, o.idx)
      | _ =>
        (String.intercalate ","
          (l.map (fun o => match o with | none => "Unknown" | some x => x.name)),
         voice_idx)

/-- A default symbol for unused table slots of the concrete images. -/
def defaultDSym : DSymbol :=
  ⟨"", SymKind.other 0, -1, 0, 0, false, "", 0⟩

/-- Concrete resolved constants shared by the concrete images below:
`SELF` at 7, `OTHER` at 8, the three builtin emit functions at 50-52, the
plain/overlay say wrappers absent (sentinel -1), the gold wrapper at
address 400, NPC `NAME`/`VOICE` members at 21/22, dialogue `NPC` /
`INFORMATION` members at 11/12. -/
def testConsts : ScriptConstants where
  c_info_idx := 10
  c_info_npc := 11
  c_info_info := 12
  c_npc_name := 21
  c_npc_voice := 22
  svm_member_lookup := []
  v_other := 8
  v_self := 7
  f_aioutput := 50
  f_aioutputsvm := 51
  f_aioutputsvmo := 52
  f_say := -1
  f_say_overlay := -1
  f_say_gold := 400

/-- An image whose every instruction is a direct call to address 0: the
function at address 0 calls itself as its first instruction, the smallest
cyclic call graph. -/
def cyclicScript : Script where
  symCount := 0
  syms := fun _ => defaultDSym
  code := fun _ => ⟨Opcode.BL, 1, 0, 0, 0⟩

/-- An image with one info function at address 100 whose single normal-kind
builtin call uses a line-identifier constant (symbol 0) that resolves to
the empty string. -/
def emptyLineScript : Script where
  symCount := 1
  syms := fun _ => ⟨"DIA_EMPTY", SymKind.CONST, -1, 1, 0, true, "", 0⟩
  code := fun a =>
    if a = 100 then ⟨Opcode.PUSHVI, 1, 0, 7, 0⟩
    else if a = 101 then ⟨Opcode.PUSHVI, 1, 0, 8, 0⟩
    else if a = 102 then ⟨Opcode.PUSHV, 1, 0, 0, 0⟩
    else if a = 103 then ⟨Opcode.BE, 1, 0, 50, 0⟩
    else ⟨Opcode.RSR, 1, 0, 0, 0⟩

/-- An image whose NPC symbol 5 has a code body that returns immediately:
the first matcher window already contains the return opcode. -/
def incompleteNpcScript : Script where
  symCount := 6
  syms := fun i =>
    if i = 5 then ⟨"NPC_EMPTY", SymKind.INSTANCE, -1, 0, 200, false, "", 0⟩
    else defaultDSym
  code := fun _ => ⟨Opcode.RSR, 1, 0, 0, 0⟩

/-- An image with one info function at address 300 calling the gold-amount
wrapper (address 400) after a literal push of 50. -/
def goldScript : Script where
  symCount := 0
  syms := fun _ => defaultDSym
  code := fun a =>
    if a = 300 then ⟨Opcode.PUSHVI, 1, 0, 7, 0⟩
    else if a = 301 then ⟨Opcode.PUSHVI, 1, 0, 8, 0⟩
    else if a = 302 then ⟨Opcode.PUSHI, 1, 50, 0, 0⟩
    else if a = 303 then ⟨Opcode.BL, 1, 0, 0, 400⟩
    else ⟨Opcode.RSR, 1, 0, 0, 0⟩

/-- An image with a class symbol `C` of declared size 2 at index 0 and its
member symbols `C.A`, `C.B` at indices 1 and 2. -/
def classScript : Script where
  symCount := 3
  syms := fun i =>
    if i = 0 then ⟨"C", SymKind.CLASS, -1, 2, 0, false, "", 0⟩
    else if i = 1 then ⟨"C.A", SymKind.VAR, 0, 1, 0, false, "", 0⟩
    else if i = 2 then ⟨"C.B", SymKind.VAR, 0, 1, 0, false, "", 0⟩
    else defaultDSym
  code := fun _ => ⟨Opcode.RSR, 1, 0, 0, 0⟩

/-- A line-text database containing only the id `"X"`. -/
def cslX : String → Option CslEntry :=
  fun n => if n = "X" then some ⟨"Hello.", "x.wav"⟩ else none

/-- A cached NPC record (index 3, name `"A"`, voice 7): within one run the
cache guarantees one `NpcInfo` object per NPC index, so both dialogue
entries of the first-owner scenario hold the very same object. -/
def npcA : Option NpcObj := some (NpcObj.cached 3 "A" 7)

/-- One normal-kind line event on id `"X"` spoken by the NPC. -/
def lineX : ScriptLineInfo := ⟨Speaker.NPC, LineType.NORMAL, "X"⟩

/-- One voice-set-kind line event on template id `"$S_0"` spoken by the
NPC. -/
def lineSvm : ScriptLineInfo := ⟨Speaker.NPC, LineType.SVM, "$S_0"⟩

/-- An image with one dialogue-entry symbol (index 4, `C_INFO` instance)
whose constructor body assigns only the `INFORMATION` member (function
symbol 2, body at address 600) and never the `NPC` member, and whose info
function emits one voice-set line using the template constant `$S_0`
(symbol 3) with speaker `SELF`. -/
def diaScript : Script where
  symCount := 5
  syms := fun i =>
    if i = 2 then ⟨"INFO_FN", SymKind.FUNCTION, -1, 0, 600, false, "", 0⟩
    else if i = 3 then ⟨"SVM_LINE", SymKind.CONST, -1, 1, 0, true, "$S_0", 0⟩
    else if i = 4 then ⟨"DIA_4", SymKind.INSTANCE, 10, 0, 500, false, "", 0⟩
    else defaultDSym
  code := fun a =>
    if a = 500 then ⟨Opcode.PUSHI, 1, 2, 0, 0⟩
    else if a = 501 then ⟨Opcode.PUSHV, 1, 0, 12, 0⟩
    else if a = 502 then ⟨Opcode.MOVVF, 1, 0, 0, 0⟩
    else if a = 600 then ⟨Opcode.PUSHVI, 1, 0, 7, 0⟩
    else if a = 601 then ⟨Opcode.PUSHVI, 1, 0, 8, 0⟩
    else if a = 602 then ⟨Opcode.PUSHV, 1, 0, 3, 0⟩
    else if a = 603 then ⟨Opcode.BE, 1, 0, 51, 0⟩
    else ⟨Opcode.RSR, 1, 0, 0, 0⟩

/-! ## Helper lemmas -/

theorem dictInsert_fresh {α β : Type} [DecidableEq α] (m : List (α × β))
    (k : α) (v : β) (h : k ∉ m.map Prod.fst) :
    dictInsert m k v = m ++ [(k, v)] := by
  induction m with
  | nil => rfl
  | cons p rest ih =>
    simp only [List.map_cons, List.mem_cons] at h
    push_neg at h
    simp only [dictInsert, if_neg (Ne.symm h.1), List.cons_append, ih h.2]

theorem dictGet?_mem {α β : Type} [DecidableEq α] {m : List (α × β)}
    {k : α} {v : β} (h : dictGet? m k = some v) : (k, v) ∈ m := by
  induction m with
  | nil => simp [dictGet?] at h
  | cons p rest ih =>
    simp only [dictGet?] at h
    by_cases hk : p.1 = k
    · rw [if_pos hk] at h
      obtain ⟨a, b⟩ := p
      simp only [Option.some.injEq] at h
      subst h
      subst hk
      exact List.mem_cons_self _ _
    · rw [if_neg hk] at h
      exact List.mem_cons_of_mem _ (ih h)

theorem dictInsert_mem {α β : Type} [DecidableEq α] {m : List (α × β)}
    {k : α} {v : β} {p : α × β} (h : p ∈ dictInsert m k v) :
    p = (k, v) ∨ p ∈ m := by
  induction m with
  | nil => simpa [dictInsert] using h
  | cons q rest ih =>
    simp only [dictInsert] at h
    by_cases hk : q.1 = k
    · rw [if_pos hk] at h
      rcases List.mem_cons.mp h with h1 | h1
      · exact Or.inl h1
      · exact Or.inr (List.mem_cons_of_mem _ h1)
    · rw [if_neg hk] at h
      rcases List.mem_cons.mp h with h1 | h1
      · exact Or.inr (h1 ▸ List.mem_cons_self _ _)
      · rcases ih h1 with h2 | h2
        · exact Or.inl h2
        · exact Or.inr (List.mem_cons_of_mem _ h2)

/-- The speaker extractor logs only speaker diagnostics. -/
theorem extract_speaker_log (prev : List Instr) (c : ScriptConstants) (a : Int) :
    (extract_speaker prev c a).2 = [] ∨
    (extract_speaker prev c a).2 = [.speakerUnknownOp a] ∨
    (extract_speaker prev c a).2 = [.speakerNeitherSelfNorOther a] := by
  unfold extract_speaker
  match prev with
  | [] => simp
  | [p1] => simp
  | [p1, p2] => simp
  | p1 :: p2 :: p3 :: rest =>
    by_cases h1 : p3.op ≠ Opcode.PUSHVI ∨ p2.op ≠ Opcode.PUSHVI
    · simp [h1]
    · simp only [if_neg h1]
      by_cases h2 : p3.symbol = c.v_self
      · rw [if_pos h2]
        simp
      · by_cases h3 : p3.symbol = c.v_other
        · rw [if_neg h2, if_pos h3]
          simp
        · rw [if_neg h2, if_neg h3]
          simp

/-- In the cyclic image the walk makes no progress at any fuel: the body
loop immediately recurses into the same address (whose memo entry is only
written after completion, hence never), so neither the loop nor the walk
ever returns a result. -/
theorem cyclic_all_fuel (f : Nat) :
    (∀ prev acc log, eslLoop cyclicScript testConsts f 0 prev acc [] log = none) ∧
    extract_script_lines cyclicScript testConsts f 0 [] = none := by
  induction f with
  | zero =>
    refine ⟨fun prev acc log => ?_, ?_⟩
    · rw [eslLoop]
    · rw [extract_script_lines]
      simp [dictGet?]
  | succ f ih =>
    have h2 := ih.2
    simp only [cyclicScript, testConsts] at h2
    have hloop : ∀ prev acc log,
        eslLoop cyclicScript testConsts (f + 1) 0 prev acc [] log = none := by
      intro prev acc log
      rw [eslLoop]
      simp only [cyclicScript, testConsts]
      norm_num
      rw [h2]
      simp
    refine ⟨hloop, ?_⟩
    rw [extract_script_lines]
    simp only [dictGet?]
    rw [ih.1]

/-! ## Claim theorems -/

/-- Claim C1.  The dialogue pass of `main` emits no rows and records no
owners or usages for any input image, line-text database, or constants:
the loop at source line 401 iterates `for symbol in []` (the symbol table
is commented out), so no dialogue-entry symbol is ever processed and the
spec's end-to-end example cannot produce its output row. -/
theorem mainDiaPhase_emits_no_dialogue_rows :
    ∀ (s : Script) (csl : String → Option CslEntry) (c : ScriptConstants)
      (fuel : Nat),
      (mainDiaPhase s csl c fuel).agg.rows = [] ∧
      (mainDiaPhase s csl c fuel).agg.line_owner = [] ∧
      (mainDiaPhase s csl c fuel).agg.svm_usages = [] :=
  fun _ _ _ _ => ⟨rfl, rfl, rfl⟩

/-- Claim C2.  Two dialogue entries (entries 0 and 1) each emitting the
normal-kind event `"X"` with the very same cached NPC object: after both
are processed, the first-owner map still holds `None` for `"X"` (the first
entry's NPC was never recorded — `prev_owner = line_npc` rebinds a local,
not the dict entry), the second same-owner entry emitted a second output
row instead of being skipped, and no conflict was logged. -/
theorem parse_dia_first_owner_never_recorded :
    (processLines cslX 1 npcA [lineX] 0
      (processLines cslX 0 npcA [lineX] 0 ⟨[], [], [], []⟩)).line_owner
        = [("X", none)] ∧
    (processLines cslX 1 npcA [lineX] 0
      (processLines cslX 0 npcA [lineX] 0 ⟨[], [], [], []⟩)).rows.length = 2 ∧
    (processLines cslX 1 npcA [lineX] 0
      (processLines cslX 0 npcA [lineX] 0 ⟨[], [], [], []⟩)).log = [] := by
  decide

/-- Claim C3.  On the cyclic image (the function at address 0 whose first
instruction calls address 0) the line-event walk completes for no amount
of fuel: the source has no cycle detection, so instead of a detected,
reported `CyclicCallGraph` failure the walk recurses without bound. -/
theorem extract_script_lines_cyclic_no_termination :
    ∀ fuel : Nat, extract_script_lines cyclicScript testConsts fuel 0 [] = none :=
  fun fuel => (cyclic_all_fuel fuel).2

/-- Claim C4, counterexample.  Walking the info function whose single
normal-kind call pushes the line constant resolving to `""`: the empty
event is appended to the output sequence, but the run's log is empty — in
particular no `lineEmpty` diagnostic was emitted, because the source's
emptiness test compares the symbol object (never equal to a string), not
the resolved string. -/
theorem empty_line_counterexample :
    extract_script_lines emptyLineScript testConsts 10 100 [] =
      some ([⟨Speaker.NPC, LineType.NORMAL, ""⟩],
            [((100 : Int), [⟨Speaker.NPC, LineType.NORMAL, ""⟩])], []) := by
  decide

/-- Claim C4, amended.  When the look-back-1 instruction is a push-variable
referencing a resolvable compile-time constant whose string value is empty,
the walker appends the event with the empty `lineId` and emits no
empty-line diagnostic: the only log entries added by the step are the
speaker extractor's, which are never `lineEmpty`. -/
theorem empty_line_emitted_unlogged (s : Script) (c : ScriptConstants)
    (f : Nat) (addr : Int) (p1 : Instr) (rest : List Instr)
    (acc : List ScriptLineInfo) (cache : LinesCache) (log : List LogMsg)
    (lsym : DSymbol)
    (hop : (s.code addr).op = Opcode.BE)
    (hsym : (s.code addr).symbol = c.f_aioutput)
    (hp1 : p1.op = Opcode.PUSHV)
    (hres : s.getSymbolByIndex p1.symbol = some lsym)
    (hconst : lsym.isConst = true)
    (hempty : lsym.strValue = "") :
    eslLoop s c (f + 1) addr (p1 :: rest) acc cache log =
      eslLoop s c f (addr + (s.code addr).size) ((s.code addr) :: p1 :: rest)
        (acc ++ [⟨(extract_speaker (p1 :: rest) c addr).1, LineType.NORMAL, ""⟩])
        cache (log ++ (extract_speaker (p1 :: rest) c addr).2) ∧
    (∀ nm i, LogMsg.lineEmpty nm i ∈ log ++ (extract_speaker (p1 :: rest) c addr).2 →
      LogMsg.lineEmpty nm i ∈ log) := by
  constructor
  · rw [eslLoop]
    simp only [hop, hsym, hp1, hres, hconst, hempty, lineTypeOfBE, pySymEqStr]
    norm_num
    simp
  · intro nm i hmem
    rcases List.mem_append.mp hmem with h | h
    · exact h
    · rcases extract_speaker_log (p1 :: rest) c addr with he | he | he <;>
        rw [he] at h <;> simp at h

/-- Witness for the amended C4 theorem at the concrete empty-line image. -/
theorem empty_line_emitted_unlogged_witness :
    eslLoop emptyLineScript testConsts 6 103
        [⟨Opcode.PUSHV, 1, 0, 0, 0⟩, ⟨Opcode.PUSHVI, 1, 0, 8, 0⟩,
         ⟨Opcode.PUSHVI, 1, 0, 7, 0⟩] [] [] [] =
      eslLoop emptyLineScript testConsts 5 (103 + (emptyLineScript.code 103).size)
        ((emptyLineScript.code 103) ::
          [⟨Opcode.PUSHV, 1, 0, 0, 0⟩, ⟨Opcode.PUSHVI, 1, 0, 8, 0⟩,
           ⟨Opcode.PUSHVI, 1, 0, 7, 0⟩])
        ([] ++ [⟨(extract_speaker
            [⟨Opcode.PUSHV, 1, 0, 0, 0⟩, ⟨Opcode.PUSHVI, 1, 0, 8, 0⟩,
             ⟨Opcode.PUSHVI, 1, 0, 7, 0⟩] testConsts 103).1, LineType.NORMAL, ""⟩])
        [] ([] ++ (extract_speaker
            [⟨Opcode.PUSHV, 1, 0, 0, 0⟩, ⟨Opcode.PUSHVI, 1, 0, 8, 0⟩,
             ⟨Opcode.PUSHVI, 1, 0, 7, 0⟩] testConsts 103).2) :=
  (empty_line_emitted_unlogged emptyLineScript testConsts 5 103
    ⟨Opcode.PUSHV, 1, 0, 0, 0⟩
    [⟨Opcode.PUSHVI, 1, 0, 8, 0⟩, ⟨Opcode.PUSHVI, 1, 0, 7, 0⟩]
    [] [] [] ⟨"DIA_EMPTY", SymKind.CONST, -1, 1, 0, true, "", 0⟩
    (by decide) (by decide) (by decide) (by decide) (by decide) (by decide)).1

/-- A usage-map value reached through `dictGet?` inherits the map's no-
duplicate invariant. -/
theorem dictInsert_cur_nodup (m : SvmUsages) (key : Int × String)
    (h : ∀ kl ∈ m, List.Nodup kl.2) :
    ∀ kl ∈ dictInsert m key ((dictGet? m key).getD []), List.Nodup kl.2 := by
  intro kl hkl
  have hcur : List.Nodup ((dictGet? m key).getD []) := by
    cases hg : dictGet? m key with
    | none => simp
    | some l => simpa using h (key, l) (dictGet?_mem hg)
  rcases dictInsert_mem hkl with he | he
  · subst he
    exact hcur
  · exact h kl he

/-- Appending an owner that is not yet present preserves the no-duplicate
invariant of the usage map. -/
theorem dictInsert_append_nodup (m : SvmUsages) (key : Int × String)
    (x : Option NpcObj) (h : ∀ kl ∈ m, List.Nodup kl.2)
    (hx : x ∉ (dictGet? m key).getD []) :
    ∀ kl ∈ dictInsert m key ((dictGet? m key).getD [] ++ [x]), List.Nodup kl.2 := by
  intro kl hkl
  have hcur : List.Nodup ((dictGet? m key).getD []) := by
    cases hg : dictGet? m key with
    | none => simp
    | some l => simpa using h (key, l) (dictGet?_mem hg)
  rcases dictInsert_mem hkl with he | he
  · subst he
    refine List.Nodup.append hcur (List.nodup_singleton x) ?_
    intro b hb hbx
    simp only [List.mem_singleton] at hbx
    exact hx (hbx ▸ hb)
  · exact h kl he

/-- One aggregation step preserves the no-duplicate invariant of every
recorded owner list: the voice-kind branch appends only owners not already
present (identity comparison), every other branch leaves the usage map
unchanged. -/
theorem processLine_svm_nodup (csl : String → Option CslEntry)
    (entry lineNo : Nat) (npc : Option NpcObj) (line : ScriptLineInfo)
    (st : AggState) (hst : ∀ kl ∈ st.svm_usages, List.Nodup kl.2) :
    ∀ kl ∈ (processLine csl entry lineNo npc line st).svm_usages,
      List.Nodup kl.2 := by
  intro kl hkl
  by_cases ht : line.type = LineType.SVM ∨ line.type = LineType.SVM_OVERLAY
  · simp only [processLine, if_pos ht] at hkl
    repeat' split at hkl
    all_goals first
      | exact dictInsert_cur_nodup _ _ hst kl hkl
      | exact dictInsert_append_nodup _ _ _ hst (by assumption) kl hkl
  · simp only [processLine, if_neg ht] at hkl
    repeat' split at hkl
    all_goals exact hst kl hkl

/-- The whole event loop preserves the no-duplicate invariant. -/
theorem processLines_svm_nodup (csl : String → Option CslEntry) (entry : Nat)
    (npc : Option NpcObj) (lines : List ScriptLineInfo) :
    ∀ (n : Nat) (st : AggState), (∀ kl ∈ st.svm_usages, List.Nodup kl.2) →
      ∀ kl ∈ (processLines csl entry npc lines n st).svm_usages,
        List.Nodup kl.2 := by
  induction lines with
  | nil => exact fun n st h kl hkl => h kl hkl
  | cons l rest ih =>
    intro n st h kl hkl
    exact ih (n + 1) _ (processLine_svm_nodup csl entry n npc l st h) kl hkl

/-- Claim C5.  The displayed-owner rules of the voice-slot pass: slot 15
always displays the hero sentinel; no recorded usage displays
`Unknown<slotId>` with index `slotId`; exactly one recorded owner displays
that owner's name and index (or `Unknown` with index -1 for the absent
marker); several recorded owners display the comma-joined names with index
`slotId`; and the recorded owner lists built by the aggregation never
contain the same owner twice. -/
theorem resolveSvmDisplay_rules :
    (∀ usage, resolveSvmDisplay 15 usage = ("Hero", 0)) ∧
    (∀ v : Int, v ≠ 15 →
        resolveSvmDisplay v none = ("Unknown" ++ toString v, v)) ∧
    (∀ v : Int, v ≠ 15 → ∀ o : NpcObj,
        resolveSvmDisplay v (some [some o]) = (o.name, o.idx)) ∧
    (∀ v : Int, v ≠ 15 →
        resolveSvmDisplay v (some [none]) = ("Unknown", -1)) ∧
    (∀ v : Int, v ≠ 15 → ∀ l : List (Option NpcObj), 2 ≤ l.length →
        resolveSvmDisplay v (some l) =
          (String.intercalate ","
            (l.map fun o => match o with | none => "Unknown" | some x => x.name),
           v)) ∧
    (∀ (csl : String → Option CslEntry) (entry : Nat) (npc : Option NpcObj)
        (lines : List ScriptLineInfo) (n : Nat) (st : AggState),
        (∀ kl ∈ st.svm_usages, List.Nodup kl.2) →
        ∀ kl ∈ (processLines csl entry npc lines n st).svm_usages,
          List.Nodup kl.2) := by
  refine ⟨?_, ?_, ?_, ?_, ?_, ?_⟩
  · intro usage
    simp [resolveSvmDisplay]
  · intro v hv
    simp [resolveSvmDisplay, hv]
  · intro v hv o
    simp [resolveSvmDisplay, hv]
  · intro v hv
    simp [resolveSvmDisplay, hv]
  · intro v hv l hl
    rcases l with _ | ⟨a, _ | ⟨b, t⟩⟩
    · simp at hl
    · simp at hl
    · simp [resolveSvmDisplay, hv]
  · exact fun csl entry npc lines n st h =>
      processLines_svm_nodup csl entry npc lines n st h

/-- Witness for the C5 rules at concrete inputs: slot 5 with one cached
owner, with the absent marker, with no usage, with two owners, slot 15
with anything, and a concrete two-event run whose recorded list stays
duplicate-free. -/
theorem resolveSvmDisplay_rules_witness :
    resolveSvmDisplay 15 (some [none, none]) = ("Hero", 0) ∧
    resolveSvmDisplay 5 none = ("Unknown5", 5) ∧
    resolveSvmDisplay 5 (some [some (NpcObj.cached 3 "A" 7)]) = ("A", 3) ∧
    resolveSvmDisplay 5 (some [none]) = ("Unknown", -1) ∧
    resolveSvmDisplay 5 (some [some (NpcObj.cached 3 "A" 7), none])
      = ("A,Unknown", 5) ∧
    List.Nodup [some (NpcObj.cached 3 "A" 7)] := by
  refine ⟨?_, ?_, ?_, ?_, ?_, ?_⟩
  · exact resolveSvmDisplay_rules.1 (some [none, none])
  · have h := resolveSvmDisplay_rules.2.1 5 (by decide)
    simpa using h
  · have h := resolveSvmDisplay_rules.2.2.1 5 (by decide) (NpcObj.cached 3 "A" 7)
    simpa [NpcObj.name, NpcObj.idx] using h
  · exact resolveSvmDisplay_rules.2.2.2.1 5 (by decide)
  · have h := resolveSvmDisplay_rules.2.2.2.2.1 5 (by decide)
      [some (NpcObj.cached 3 "A" 7), none] (by decide)
    simpa [NpcObj.name] using h
  · exact resolveSvmDisplay_rules.2.2.2.2.2 cslX 0 npcA [lineSvm, lineSvm] 0
      ⟨[], [], [], []⟩ (by intro kl hkl; simp at hkl)
      ((7, "S_0"), [some (NpcObj.cached 3 "A" 7)]) (by decide)

/-- Claim C6.  The NPC matcher: (1) whenever any of the three window
instructions is the return opcode before both fields are captured, the
loop stops at once with the logged incomplete outcome and the absent
result; (2) an uncached NPC whose walk ends incomplete caches the absent
marker under its index and returns it; (3) a cached NPC index returns the
cached value with the cache untouched and an empty log, for every script —
in particular the result does not depend on the instruction stream, i.e.
no re-walk happens. -/
theorem parse_npc_incomplete_and_cache :
    (∀ (s : Script) (c : ScriptConstants) (npcIdx : Int) (f : Nat)
        (i1 i2 i3 : Instr) (addr n v : Int),
        (i1.op = Opcode.RSR ∨ i2.op = Opcode.RSR ∨ i3.op = Opcode.RSR) →
        ¬(n ≠ -1 ∧ v ≠ -1) →
        parseNpcLoop s c npcIdx (f + 1) i1 i2 i3 addr n v =
          some (none, [.npcIncomplete npcIdx])) ∧
    (∀ (s : Script) (c : ScriptConstants) (npcIdx : Int) (cache : NpcCache)
        (f : Nat) (lg : List LogMsg),
        dictGet? cache npcIdx = none →
        parseNpcLoop s c npcIdx f
            (s.code (s.syms npcIdx.toNat).address)
            (s.code ((s.syms npcIdx.toNat).address +
              (s.code (s.syms npcIdx.toNat).address).size))
            (s.code ((s.syms npcIdx.toNat).address +
              (s.code (s.syms npcIdx.toNat).address).size +
              (s.code ((s.syms npcIdx.toNat).address +
                (s.code (s.syms npcIdx.toNat).address).size)).size))
            ((s.syms npcIdx.toNat).address +
              (s.code (s.syms npcIdx.toNat).address).size +
              (s.code ((s.syms npcIdx.toNat).address +
                (s.code (s.syms npcIdx.toNat).address).size)).size)
            (-1) (-1) = some (none, lg) →
        parse_npc s npcIdx c cache f =
          some (none, dictInsert cache npcIdx none, lg)) ∧
    (∀ (s : Script) (npcIdx : Int) (c : ScriptConstants) (cache : NpcCache)
        (f : Nat) (m : Option NpcObj),
        dictGet? cache npcIdx = some m →
        parse_npc s npcIdx c cache f = some (m, cache, [])) := by
  refine ⟨?_, ?_, ?_⟩
  · intro s c npcIdx f i1 i2 i3 addr n v h _hnv
    rw [parseNpcLoop]
    rw [if_pos h]
  · intro s c npcIdx cache f lg hcache hloop
    simp only [parse_npc, hcache]
    rw [hloop]
  · intro s npcIdx c cache f m hcache
    simp only [parse_npc, hcache]

/-- Witness for C6 on the concrete return-immediately NPC image: the
incomplete break, the cached absent marker, and a cached lookup that
returns the marker even over a different image with zero fuel. -/
theorem parse_npc_incomplete_and_cache_witness :
    parseNpcLoop incompleteNpcScript testConsts 5 1 ⟨Opcode.RSR, 1, 0, 0, 0⟩
        ⟨Opcode.RSR, 1, 0, 0, 0⟩ ⟨Opcode.RSR, 1, 0, 0, 0⟩ 202 (-1) (-1) =
      some (none, [.npcIncomplete 5]) ∧
    parse_npc incompleteNpcScript 5 testConsts [] 1 =
      some (none, dictInsert [] 5 none, [.npcIncomplete 5]) ∧
    parse_npc cyclicScript 5 testConsts [(5, none)] 0 =
      some (none, [(5, none)], []) :=
  ⟨parse_npc_incomplete_and_cache.1 incompleteNpcScript testConsts 5 0
      ⟨Opcode.RSR, 1, 0, 0, 0⟩ ⟨Opcode.RSR, 1, 0, 0, 0⟩ ⟨Opcode.RSR, 1, 0, 0, 0⟩
      202 (-1) (-1) (by decide) (by decide),
   parse_npc_incomplete_and_cache.2.1 incompleteNpcScript testConsts 5 [] 1
      [.npcIncomplete 5] (by decide) (by decide),
   parse_npc_incomplete_and_cache.2.2 cyclicScript 5 testConsts [(5, none)] 0
      none (by decide)⟩

/-- Claim C7.  A direct call to the known gold-amount wrapper address whose
preceding instruction pushes the literal `V` synthesizes exactly one event
`⟨speaker, voiceSet, "$GOLD_" ++ V⟩`, the speaker coming from the usual
look-back-3/2 rule, and the step adds nothing else to the output. -/
theorem gold_synthesis (s : Script) (c : ScriptConstants) (f : Nat) (addr : Int)
    (p1 : Instr) (rest : List Instr) (acc : List ScriptLineInfo)
    (cache : LinesCache) (log : List LogMsg)
    (hop : (s.code addr).op = Opcode.BL)
    (hgold : (s.code addr).address = c.f_say_gold)
    (hsay : (s.code addr).address ≠ c.f_say)
    (hovl : (s.code addr).address ≠ c.f_say_overlay)
    (hp1 : p1.op = Opcode.PUSHI) :
    eslLoop s c (f + 1) addr (p1 :: rest) acc cache log =
      eslLoop s c f (addr + (s.code addr).size) ((s.code addr) :: p1 :: rest)
        (acc ++ [⟨(extract_speaker (p1 :: rest) c addr).1, LineType.SVM,
                  "$GOLD_" ++ toString p1.immediate⟩])
        cache (log ++ (extract_speaker (p1 :: rest) c addr).2) := by
  rw [eslLoop]
  simp only [hop, hp1, lineTypeOfBE]
  rw [if_neg hsay, if_neg hovl, if_pos hgold]
  norm_num
  simp

/-- Witness for C7 at the concrete image: a push of literal 50 followed by
a call to the wrapper at 400 appends exactly the event with lineId
`$GOLD_50`. -/
theorem gold_synthesis_witness :
    eslLoop goldScript testConsts 6 303
        [⟨Opcode.PUSHI, 1, 50, 0, 0⟩, ⟨Opcode.PUSHVI, 1, 0, 8, 0⟩,
         ⟨Opcode.PUSHVI, 1, 0, 7, 0⟩] [] [] [] =
      eslLoop goldScript testConsts 5 (303 + (goldScript.code 303).size)
        ((goldScript.code 303) ::
          [⟨Opcode.PUSHI, 1, 50, 0, 0⟩, ⟨Opcode.PUSHVI, 1, 0, 8, 0⟩,
           ⟨Opcode.PUSHVI, 1, 0, 7, 0⟩])
        ([] ++ [⟨(extract_speaker
            [⟨Opcode.PUSHI, 1, 50, 0, 0⟩, ⟨Opcode.PUSHVI, 1, 0, 8, 0⟩,
             ⟨Opcode.PUSHVI, 1, 0, 7, 0⟩] testConsts 303).1, LineType.SVM,
            "$GOLD_" ++ toString (50 : Int)⟩])
        [] ([] ++ (extract_speaker
            [⟨Opcode.PUSHI, 1, 50, 0, 0⟩, ⟨Opcode.PUSHVI, 1, 0, 8, 0⟩,
             ⟨Opcode.PUSHVI, 1, 0, 7, 0⟩] testConsts 303).2) ∧
    "$GOLD_" ++ toString (50 : Int) = "$GOLD_50" :=
  ⟨gold_synthesis goldScript testConsts 5 303 ⟨Opcode.PUSHI, 1, 50, 0, 0⟩
      [⟨Opcode.PUSHVI, 1, 0, 8, 0⟩, ⟨Opcode.PUSHVI, 1, 0, 7, 0⟩] [] [] []
      (by decide) (by decide) (by decide) (by decide) (by decide),
   by decide⟩

/-- Claim C8.  Speaker extraction at a trigger: fewer than three prior
instructions, or a look-back-3/look-back-2 instruction that is not the
push local/global reference opcode, defaults to unknown with a log;
otherwise the look-back-3 symbol decides — the resolved `SELF` gives npc,
the resolved `OTHER` gives hero, anything else gives unknown with a log. -/
theorem extract_speaker_rules :
    (∀ (prev : List Instr) (c : ScriptConstants) (a : Int), prev.length < 3 →
        extract_speaker prev c a = (Speaker.NONE, [.speakerUnknownOp a])) ∧
    (∀ (p1 p2 p3 : Instr) (rest : List Instr) (c : ScriptConstants) (a : Int),
        p3.op ≠ Opcode.PUSHVI ∨ p2.op ≠ Opcode.PUSHVI →
        extract_speaker (p1 :: p2 :: p3 :: rest) c a =
          (Speaker.NONE, [.speakerUnknownOp a])) ∧
    (∀ (p1 p2 p3 : Instr) (rest : List Instr) (c : ScriptConstants) (a : Int),
        p3.op = Opcode.PUSHVI → p2.op = Opcode.PUSHVI →
        p3.symbol = c.v_self →
        extract_speaker (p1 :: p2 :: p3 :: rest) c a = (Speaker.NPC, [])) ∧
    (∀ (p1 p2 p3 : Instr) (rest : List Instr) (c : ScriptConstants) (a : Int),
        p3.op = Opcode.PUSHVI → p2.op = Opcode.PUSHVI →
        p3.symbol ≠ c.v_self → p3.symbol = c.v_other →
        extract_speaker (p1 :: p2 :: p3 :: rest) c a = (Speaker.HERO, [])) ∧
    (∀ (p1 p2 p3 : Instr) (rest : List Instr) (c : ScriptConstants) (a : Int),
        p3.op = Opcode.PUSHVI → p2.op = Opcode.PUSHVI →
        p3.symbol ≠ c.v_self → p3.symbol ≠ c.v_other →
        extract_speaker (p1 :: p2 :: p3 :: rest) c a =
          (Speaker.NONE, [.speakerNeitherSelfNorOther a])) := by
  refine ⟨?_, ?_, ?_, ?_, ?_⟩
  · intro prev c a h
    rcases prev with _ | ⟨x, _ | ⟨y, _ | ⟨z, t⟩⟩⟩
    · rfl
    · rfl
    · rfl
    · simp at h
      omega
  · intro p1 p2 p3 rest c a h
    simp only [extract_speaker, if_pos h]
  · intro p1 p2 p3 rest c a h3 h2 hs
    simp only [extract_speaker, h3, h2, hs]
    simp
  · intro p1 p2 p3 rest c a h3 h2 hns ho
    simp only [extract_speaker]
    rw [if_neg (by simp [h3, h2]), if_neg hns, if_pos ho]
  · intro p1 p2 p3 rest c a h3 h2 hns hno
    simp only [extract_speaker]
    rw [if_neg (by simp [h3, h2]), if_neg hns, if_neg hno]

/-- Witness for C8: concrete instantiations of all five cases. -/
theorem extract_speaker_rules_witness :
    extract_speaker [⟨Opcode.PUSHVI, 1, 0, 7, 0⟩] testConsts 9 =
      (Speaker.NONE, [.speakerUnknownOp 9]) ∧
    extract_speaker [⟨Opcode.PUSHV, 1, 0, 0, 0⟩, ⟨Opcode.PUSHVI, 1, 0, 8, 0⟩,
        ⟨Opcode.PUSHI, 1, 0, 7, 0⟩] testConsts 9 =
      (Speaker.NONE, [.speakerUnknownOp 9]) ∧
    extract_speaker [⟨Opcode.PUSHV, 1, 0, 0, 0⟩, ⟨Opcode.PUSHVI, 1, 0, 8, 0⟩,
        ⟨Opcode.PUSHVI, 1, 0, 7, 0⟩] testConsts 9 = (Speaker.NPC, []) ∧
    extract_speaker [⟨Opcode.PUSHV, 1, 0, 0, 0⟩, ⟨Opcode.PUSHVI, 1, 0, 7, 0⟩,
        ⟨Opcode.PUSHVI, 1, 0, 8, 0⟩] testConsts 9 = (Speaker.HERO, []) ∧
    extract_speaker [⟨Opcode.PUSHV, 1, 0, 0, 0⟩, ⟨Opcode.PUSHVI, 1, 0, 7, 0⟩,
        ⟨Opcode.PUSHVI, 1, 0, 9, 0⟩] testConsts 9 =
      (Speaker.NONE, [.speakerNeitherSelfNorOther 9]) :=
  ⟨extract_speaker_rules.1 [⟨Opcode.PUSHVI, 1, 0, 7, 0⟩] testConsts 9 (by decide),
   extract_speaker_rules.2.1 ⟨Opcode.PUSHV, 1, 0, 0, 0⟩ ⟨Opcode.PUSHVI, 1, 0, 8, 0⟩
      ⟨Opcode.PUSHI, 1, 0, 7, 0⟩ [] testConsts 9 (by decide),
   extract_speaker_rules.2.2.1 ⟨Opcode.PUSHV, 1, 0, 0, 0⟩ ⟨Opcode.PUSHVI, 1, 0, 8, 0⟩
      ⟨Opcode.PUSHVI, 1, 0, 7, 0⟩ [] testConsts 9 (by decide) (by decide) (by decide),
   extract_speaker_rules.2.2.2.1 ⟨Opcode.PUSHV, 1, 0, 0, 0⟩ ⟨Opcode.PUSHVI, 1, 0, 7, 0⟩
      ⟨Opcode.PUSHVI, 1, 0, 8, 0⟩ [] testConsts 9 (by decide) (by decide) (by decide)
      (by decide),
   extract_speaker_rules.2.2.2.2 ⟨Opcode.PUSHV, 1, 0, 0, 0⟩ ⟨Opcode.PUSHVI, 1, 0, 7, 0⟩
      ⟨Opcode.PUSHVI, 1, 0, 9, 0⟩ [] testConsts 9 (by decide) (by decide) (by decide)
      (by decide)⟩

/-- Inserting a run of fresh, pairwise distinct keys into the member table
appends the corresponding entries in order. -/
theorem buildMembersFwd_fresh (s : Script) (idx : Nat) (key : Nat → String) :
    ∀ (offs : List Nat) (acc : List (String × Nat)),
      (∀ off ∈ offs, pySplitDot1 (s.syms (idx + off)).name = some (key off)) →
      (∀ off ∈ offs, key off ∉ acc.map Prod.fst) →
      (offs.map key).Nodup →
      DaedClass.buildMembersFwd s idx offs acc =
        some (acc ++ offs.map (fun off => (key off, idx + off))) := by
  intro offs
  induction offs with
  | nil =>
    intro acc _ _ _
    simp [DaedClass.buildMembersFwd]
  | cons off rest ih =>
    intro acc hk hf hnd
    rw [DaedClass.buildMembersFwd]
    simp only [hk off (List.mem_cons_self _ _)]
    rw [dictInsert_fresh acc (key off) (idx + off) (hf off (List.mem_cons_self _ _))]
    rw [ih (acc ++ [(key off, idx + off)])
      (fun o ho => hk o (List.mem_cons_of_mem _ ho)) ?_ ?_]
    · simp
    · intro o ho
      simp only [List.map_append, List.mem_append]
      push_neg
      refine ⟨hf o (List.mem_cons_of_mem _ ho), ?_⟩
      simp only [List.map_cons, List.map_nil, List.mem_singleton]
      intro he
      have hin : key off ∈ rest.map key := he ▸ List.mem_map_of_mem key ho
      exact (List.nodup_cons.mp hnd).1 hin
    · exact (List.nodup_cons.mp hnd).2

/-- Claim C9.  Class-layout resolution: a missing symbol fails with
`ClassNotFound` and a non-class symbol with `WrongSymbolKind`; a class
symbol at index `i` with declared size `N`, whose member symbols at
`i+1 .. i+N` carry names of the form `ClassName.MemberName` with pairwise
distinct member keys, yields exactly `N` members whose symbol indices are
`i+1` through `i+N` inclusive, each keyed by the substring of the member
symbol's full name after the first `.`. -/
theorem daedclass_layout :
    (∀ (s : Script) (cname : String), s.getSymbolByName cname = none →
        DaedClass.search s cname = .error .notFound) ∧
    (∀ (s : Script) (cname : String) (i : Nat),
        s.getSymbolByName cname = some i → (s.syms i).kind ≠ SymKind.CLASS →
        DaedClass.search s cname = .error .wrongKind) ∧
    (∀ (s : Script) (cname : String) (i N : Nat) (key : Nat → String),
        s.getSymbolByName cname = some i →
        (s.syms i).kind = SymKind.CLASS →
        (s.syms i).size = (N : Int) →
        (∀ off, 1 ≤ off → off ≤ N →
            (s.syms (i + off)).name = cname ++ "." ++ key off ∧
            pySplitDot1 (s.syms (i + off)).name = some (key off)) →
        (∀ o1 o2, 1 ≤ o1 → o1 ≤ N → 1 ≤ o2 → o2 ≤ N → key o1 = key o2 → o1 = o2) →
        DaedClass.search s cname =
          .ok ⟨i, (List.range N).map (fun j => (key (j + 1), i + (j + 1)))⟩ ∧
        ((List.range N).map (fun j => (key (j + 1), i + (j + 1)))).length = N) := by
  refine ⟨?_, ?_, ?_⟩
  · intro s cname h
    simp only [DaedClass.search, h]
  · intro s cname i h1 h2
    simp only [DaedClass.search, h1]
    rw [if_pos h2]
  · intro s cname i N key h1 h2 hsize hnames hinj
    have hmem : ∀ off ∈ (List.range N).map (· + 1), 1 ≤ off ∧ off ≤ N := by
      intro off ho
      simp only [List.mem_map, List.mem_range] at ho
      obtain ⟨j, hj, rfl⟩ := ho
      omega
    have hnd : (((List.range N).map (· + 1)).map key).Nodup := by
      rw [List.map_map]
      refine List.Nodup.map_on ?_ (List.nodup_range N)
      intro x hx y hy hxy
      simp only [List.mem_range] at hx hy
      have := hinj (x + 1) (y + 1) (by omega) (by omega) (by omega) (by omega) hxy
      omega
    have hbuild := buildMembersFwd_fresh s i key ((List.range N).map (· + 1)) []
      (fun o ho => (hnames o (hmem o ho).1 (hmem o ho).2).2)
      (fun o _ => by simp)
      hnd
    constructor
    · simp only [DaedClass.search, h1]
      rw [if_neg (by simp [h2])]
      simp only [DaedClass.init, hsize, Int.toNat_natCast]
      rw [hbuild]
      simp [List.map_map]
    · simp

/-- Witness for C9 at the concrete image: class `C` of size 2 with members
`C.A`, `C.B` resolves to the two-entry layout. -/
theorem daedclass_layout_witness :
    DaedClass.search classScript "C" =
      .ok ⟨0, (List.range 2).map
        (fun j => ((fun off => if off = 1 then "A" else "B") (j + 1), 0 + (j + 1)))⟩ ∧
    ((List.range 2).map
      (fun j => ((fun off => if off = 1 then "A" else "B") (j + 1), 0 + (j + 1)))).length
      = 2 :=
  daedclass_layout.2.2 classScript "C" 0 2 (fun off => if off = 1 then "A" else "B")
    (by decide) (by decide) (by decide)
    (by
      intro off ho1 ho2
      interval_cases off <;> exact ⟨by decide, by decide⟩)
    (by
      intro o1 o2 h1 h2 h3 h4 h5
      interval_cases o1 <;> interval_cases o2 <;> simp_all)

/-- Claim C10.  `NpcInfo.unknown()` builds a fresh object
`(-1, "Unknown", 0)` at every call: distinct dialogue entries hold
distinct unknown-NPC objects, and since owner recording compares by object
identity, two entries with uncaptured NPC index that record voice-kind
usage under the same key are both appended — unknown owners are never
deduplicated against each other.  The last conjunct runs the full
`parse_dia` on the dialogue entry whose constructor never assigns the NPC
member: the entry is attributed to the fresh sentinel tagged by the entry
symbol. -/
theorem unknown_npc_not_shared :
    (∀ entry : Nat, (NpcObj.unknownO entry).idx = -1 ∧
        (NpcObj.unknownO entry).name = "Unknown" ∧
        (NpcObj.unknownO entry).voice = 0) ∧
    (∀ e1 e2 : Nat, e1 ≠ e2 → NpcObj.unknownO e1 ≠ NpcObj.unknownO e2) ∧
    (∀ (csl : String → Option CslEntry) (e1 e2 : Nat) (id : String) (sp : Speaker),
        e1 ≠ e2 → sp ≠ Speaker.HERO →
        dictGet? (processLines csl e2 (some (NpcObj.unknownO e2))
            [⟨sp, LineType.SVM, id⟩] 0
            (processLines csl e1 (some (NpcObj.unknownO e1))
              [⟨sp, LineType.SVM, id⟩] 0 ⟨[], [], [], []⟩)).svm_usages
          (0, id.drop 1) =
          some [some (NpcObj.unknownO e1), some (NpcObj.unknownO e2)]) ∧
    (parse_dia diaScript (fun _ => none) 4 testConsts 10 initDiaState).map
        (fun st => st.agg.svm_usages) =
      some [((0, "S_0"), [some (NpcObj.unknownO 4)])] := by
  refine ⟨?_, ?_, ?_, ?_⟩
  · intro entry
    exact ⟨rfl, rfl, rfl⟩
  · intro e1 e2 h he
    simp only [NpcObj.unknownO.injEq] at he
    exact h he
  · intro csl e1 e2 id sp h hsp
    simp only [processLines, processLine, if_neg hsp]
    norm_num [dictGet?, dictInsert, npcVoiceOf, NpcObj.voice]
    simp [h, Ne.symm h, dictGet?]
  · decide

/-- Witness for C10 at concrete entries 1 and 2 with template id `$S_0`. -/
theorem unknown_npc_not_shared_witness :
    ((NpcObj.unknownO 1).idx = -1 ∧ (NpcObj.unknownO 1).name = "Unknown" ∧
      (NpcObj.unknownO 1).voice = 0) ∧
    NpcObj.unknownO 1 ≠ NpcObj.unknownO 2 ∧
    dictGet? (processLines cslX 2 (some (NpcObj.unknownO 2))
        [⟨Speaker.NPC, LineType.SVM, "$S_0"⟩] 0
        (processLines cslX 1 (some (NpcObj.unknownO 1))
          [⟨Speaker.NPC, LineType.SVM, "$S_0"⟩] 0 ⟨[], [], [], []⟩)).svm_usages
      (0, ("$S_0" : String).drop 1) =
      some [some (NpcObj.unknownO 1), some (NpcObj.unknownO 2)] :=
  ⟨unknown_npc_not_shared.1 1,
   unknown_npc_not_shared.2.1 1 2 (by decide),
   unknown_npc_not_shared.2.2.1 cslX 1 2 "$S_0" Speaker.NPC (by decide) (by decide)⟩
